import Mathlib

/-!
Verification of the client-side behavior layer of the ITEasier landing page
(`main.js`): contact-form validation and mailto construction, the mobile-menu
state machine, the header and scroll-top scroll watchers, the scroll-reveal
observer, and the smooth-scroll click handler. Strings are modelled as
`List Char`; DOM elements that may be absent are modelled as `Option`;
a JavaScript `TypeError` thrown by dereferencing a missing element is
modelled as an explicit crash outcome.
-/

namespace ITEasier

/-! ## JavaScript string primitives -/

/-- The set of characters matched by `\s` in a JS regex and removed by
`String.prototype.trim`: tab, LF, VT, FF, CR, space, NBSP, Ogham space mark,
the Zs characters U+2000–U+200A, LS, PS, narrow NBSP, medium mathematical
space, ideographic space, and ZWNBSP. -/
def isJsWhitespace (c : Char) : Bool :=
  let n := c.toNat
  decide (n = 9 ∨ n = 10 ∨ n = 11 ∨ n = 12 ∨ n = 13 ∨ n = 32 ∨
    n = 160 ∨ n = 5760 ∨ (8192 ≤ n ∧ n ≤ 8202) ∨ n = 8232 ∨
    n = 8233 ∨ n = 8239 ∨ n = 8287 ∨ n = 12288 ∨ n = 65279)

/-- `String.prototype.trim`: strip leading and trailing JS whitespace. -/
def trimList (l : List Char) : List Char :=
  ((l.dropWhile isJsWhitespace).reverse.dropWhile isJsWhitespace).reverse

/-! ## Percent-encoding (`encodeURIComponent` / `decodeURIComponent`) -/

/-- UTF-8 encoding of a Unicode code point, as a list of byte values. -/
def utf8EncodeChar (n : Nat) : List Nat :=
  if n < 128 then [n]
  else if n < 2048 then [192 + n / 64, 128 + n % 64]
  else if n < 65536 then [224 + n / 4096, 128 + n / 64 % 64, 128 + n % 64]
  else [240 + n / 262144, 128 + n / 4096 % 64, 128 + n / 64 % 64, 128 + n % 64]

/-- Uppercase hexadecimal digit, as produced by `encodeURIComponent`. -/
def hexDigitChar (n : Nat) : Char :=
  if n < 10 then Char.ofNat (48 + n) else Char.ofNat (55 + n)

/-- Value of a hexadecimal digit character (either case). -/
def hexVal (c : Char) : Option Nat :=
  let n := c.toNat
  if 48 ≤ n ∧ n ≤ 57 then some (n - 48)
  else if 65 ≤ n ∧ n ≤ 70 then some (n - 55)
  else if 97 ≤ n ∧ n ≤ 102 then some (n - 87)
  else none

/-- The characters `encodeURIComponent` leaves unescaped:
`A–Z a–z 0–9 - _ . ! ~ * ' ( )` (ECMA-262 `uriUnescaped`). -/
def isUnreservedURI (c : Char) : Bool :=
  let n := c.toNat
  decide ((65 ≤ n ∧ n ≤ 90) ∨ (97 ≤ n ∧ n ≤ 122) ∨ (48 ≤ n ∧ n ≤ 57) ∨
    n = 45 ∨ n = 95 ∨ n = 46 ∨ n = 33 ∨ n = 126 ∨ n = 42 ∨ n = 39 ∨
    n = 40 ∨ n = 41)

/-- `%XX` escape of one byte, uppercase hex. -/
def escapeByte (b : Nat) : List Char :=
  ['%', hexDigitChar (b / 16), hexDigitChar (b % 16)]

/-- `encodeURIComponent`: unreserved characters pass through, every other
character is UTF-8 encoded and each byte written as `%XX`. -/
def encodeURIComponent (l : List Char) : List Char :=
  l.flatMap (fun c =>
    if isUnreservedURI c then [c] else (utf8EncodeChar c.toNat).flatMap escapeByte)

/-- First phase of `decodeURIComponent`: turn the character stream into a byte
stream, replacing each `%XX` escape by its byte and every other character by
its UTF-8 bytes. Fails on a malformed escape. -/
def percentToBytes : List Char → Option (List Nat)
  | [] => some []
  | c :: rest =>
    if c = '%' then
      match rest with
      | h :: lo :: rest2 =>
        match hexVal h, hexVal lo with
        | some a, some b => (percentToBytes rest2).map (fun bs => (16 * a + b) :: bs)
        | _, _ => none
      | _ => none
    else
      (percentToBytes rest).map (fun bs => utf8EncodeChar c.toNat ++ bs)

/-- A UTF-8 continuation byte: `10xxxxxx`. -/
def isContByte (b : Nat) : Bool := decide (128 ≤ b ∧ b < 192)

/-- One step of strict UTF-8 decoding: read a single scalar value off the
front of the byte stream (rejecting overlong forms, surrogates and
out-of-range values), returning it with the remaining bytes. -/
def utf8DecodeStep : List Nat → Option (Char × List Nat)
  | [] => none
  | b0 :: rest =>
    if b0 < 128 then some (Char.ofNat b0, rest)
    else if b0 < 194 then none
    else if b0 < 224 then
      match rest with
      | b1 :: rest2 =>
        if isContByte b1 then
          some (Char.ofNat ((b0 - 192) * 64 + (b1 - 128)), rest2)
        else none
      | [] => none
    else if b0 < 240 then
      match rest with
      | b1 :: b2 :: rest3 =>
        if isContByte b1 && isContByte b2 then
          let n := (b0 - 224) * 4096 + (b1 - 128) * 64 + (b2 - 128)
          if 2048 ≤ n ∧ (n < 55296 ∨ 57343 < n) then
            some (Char.ofNat n, rest3)
          else none
        else none
      | _ => none
    else if b0 < 245 then
      match rest with
      | b1 :: b2 :: b3 :: rest4 =>
        if isContByte b1 && isContByte b2 && isContByte b3 then
          let n := (b0 - 240) * 262144 + (b1 - 128) * 4096 +
            (b2 - 128) * 64 + (b3 - 128)
          if 65536 ≤ n ∧ n < 1114112 then
            some (Char.ofNat n, rest4)
          else none
        else none
      | _ => none
    else none

set_option maxRecDepth 10000 in
/-- A successful decode step consumes at least one byte. -/
theorem utf8DecodeStep_length (l : List Nat) (c : Char) (r : List Nat)
    (h : utf8DecodeStep l = some (c, r)) : r.length < l.length := by
  cases l with
  | nil => simp [utf8DecodeStep] at h
  | cons b0 rest =>
    rcases rest with _ | ⟨b1, _ | ⟨b2, _ | ⟨b3, rest4⟩⟩⟩ <;>
      (rw [utf8DecodeStep.eq_def] at h
       simp only at h
       split_ifs at h <;>
         (cases h
          simp only [List.length_cons]
          omega))

/-- Second phase of `decodeURIComponent`: strict UTF-8 decoding of the whole
byte stream. -/
def utf8Decode : List Nat → Option (List Char)
  | [] => some []
  | b0 :: rest =>
    match hs : utf8DecodeStep (b0 :: rest) with
    | some (c, rest2) => (utf8Decode rest2).map (fun cs => c :: cs)
    | none => none
termination_by l => l.length
decreasing_by
  exact utf8DecodeStep_length _ _ _ hs

/-- `decodeURIComponent` (restricted to inputs where every non-escaped
character is kept as its own UTF-8 bytes, which agrees with the browser on
every output of `encodeURIComponent`). -/
def decodeURIComponent (l : List Char) : Option (List Char) :=
  (percentToBytes l).bind utf8Decode

/-! ## The email regular expression `^[^\s@]+@[^\s@]+\.[^\s@]+$` -/

/-- A character admitted by the class `[^\s@]`: neither JS whitespace nor `@`. -/
def okEmailChar (c : Char) : Bool := !isJsWhitespace c && c != '@'

/-- Does `l` split as `b ++ '.' :: c` with `c` nonempty (`b` may be empty)? -/
def dotInner : List Char → Bool
  | [] => false
  | [_] => false
  | c :: d :: rest => c == '.' || dotInner (d :: rest)

/-- Does `l` split as `b ++ '.' :: c` with both `b` and `c` nonempty? -/
def dotSplit : List Char → Bool
  | [] => false
  | _ :: rest => dotInner rest

/-- Matcher for the part after `@`, i.e. `[^\s@]+\.[^\s@]+$`: every character
is in the class (the dot itself is), and some dot has a nonempty class run on
each side. -/
def emailDomainOk (r : List Char) : Bool := r.all okEmailChar && dotSplit r

/-- Matcher for `[^\s@]*@[^\s@]+\.[^\s@]+$` (local part possibly empty at this
point; `emailRegexTest` requires its first character separately). -/
def emailTail : List Char → Bool
  | [] => false
  | c :: rest => if c = '@' then emailDomainOk rest else okEmailChar c && emailTail rest

/-- The regex `/^[^\s@]+@[^\s@]+\.[^\s@]+$/` from `validateField`. -/
def emailRegexTest (l : List Char) : Bool :=
  match l with
  | [] => false
  | c :: rest => okEmailChar c && emailTail rest

/-- The language of the regex, written out as the spec words it: one or more
characters neither whitespace nor `@`, then `@`, then one or more such
characters, then `.`, then one or more such characters. -/
def EmailPattern (l : List Char) : Prop :=
  ∃ a b c : List Char,
    l = a ++ '@' :: (b ++ '.' :: c) ∧
    a ≠ [] ∧ b ≠ [] ∧ c ≠ [] ∧
    (∀ x ∈ a, ¬isJsWhitespace x ∧ x ≠ '@') ∧
    (∀ x ∈ b, ¬isJsWhitespace x ∧ x ≠ '@') ∧
    (∀ x ∈ c, ¬isJsWhitespace x ∧ x ≠ '@')

/-! ## Contact-form model

A form input element and its surrounding `.form-group`. `errorSlot` is the
text content of the group's `.form-error` element, `none` when that element is
absent; `isInvalid` models membership of the `is-invalid` class. -/

structure Field where
  value : List Char
  fieldName : String
  required : Bool
  isInvalid : Bool
  errorSlot : Option String
deriving Repr, DecidableEq

/-- `showFieldError`: add the `is-invalid` class and, when the error element
exists, set its text. -/
def showFieldError (f : Field) (message : String) : Field :=
  { f with isInvalid := true, errorSlot := f.errorSlot.map (fun _ => message) }

/-- `clearFieldError`: remove the `is-invalid` class and, when the error
element exists, empty its text. -/
def clearFieldError (f : Field) : Field :=
  { f with isInvalid := false, errorSlot := f.errorSlot.map (fun _ => "") }

/-- `validateField`: a `none` field is reported valid unchanged; otherwise the
trimmed value is checked (required, then email format), producing the updated
field and the validity. -/
def validateField : Option Field → Bool × Option Field
  | none => (true, none)
  | some f =>
    let value := trimList f.value
    let errorMessage : String :=
      if f.required ∧ value = [] then "To pole jest wymagane"
      else if f.fieldName = "email" ∧ value ≠ [] then
        if !emailRegexTest value then "Podaj prawidłowy adres e-mail" else ""
      else ""
    if errorMessage ≠ "" then (false, some (showFieldError f errorMessage))
    else (true, some (clearFieldError f))

/-- The error message `validateField` computes for a field: the required-field
check first, then the email-format check, empty when the field is valid. -/
def fieldErrorMessage (f : Field) : String :=
  let value := trimList f.value
  if f.required ∧ value = [] then "To pole jest wymagane"
  else if f.fieldName = "email" ∧ value ≠ [] then
    if !emailRegexTest value then "Podaj prawidłowy adres e-mail" else ""
  else ""

/-- `buildEmailBody`: labeled lines for name, email, optionally phone, and the
message, percent-encoded as a whole. -/
def buildEmailBody (name email phone message : List Char) : List Char :=
  let line1 := "Imię i nazwisko: ".toList ++ name ++ ['\n']
  let line2 := "E-mail: ".toList ++ email ++ ['\n']
  let phoneLine := if phone ≠ [] then "Telefon: ".toList ++ phone ++ ['\n'] else []
  let body := line1 ++ line2 ++ phoneLine ++ ['\n'] ++ "Wiadomość:\n".toList ++ message
  encodeURIComponent body

/-- The body text before percent-encoding (what the mail client displays). -/
def plainEmailBody (name email phone message : List Char) : List Char :=
  "Imię i nazwisko: ".toList ++ name ++ ['\n'] ++
  "E-mail: ".toList ++ email ++ ['\n'] ++
  (if phone ≠ [] then "Telefon: ".toList ++ phone ++ ['\n'] else []) ++
  ['\n'] ++ "Wiadomość:\n".toList ++ message

/-- Outcome of the `submit` handler. `invalid` aborts with the revalidated
fields (no navigation, no notice); `navigate` sets `window.location.href` to
the mailto link and inserts the success notice; `crash` models the
`TypeError` thrown when a field that passed validation as `none` is
dereferenced to build the body. -/
inductive SubmitOutcome where
  | invalid (nameF emailF messageF : Option Field)
  | navigate (href : List Char) (nameF emailF messageF : Option Field)
  | crash
deriving Repr, DecidableEq

/-- Was the transient success notice inserted?  `showFormSuccess` is invoked
only on the `navigate` path. -/
def successNoticeInserted : SubmitOutcome → Bool
  | .navigate _ _ _ _ => true
  | _ => false

/-- `phoneInput ? phoneInput.value.trim() : ''`: the optional phone input's
trimmed value, empty when the input is absent. -/
def phoneValueOf : Option Field → List Char
  | some pf => trimList pf.value
  | none => []

/-- The `submit` handler of `setupContactForm`: validate the three required
inputs; if all pass, build the mailto link from the trimmed raw input values
and navigate; otherwise abort with the per-field errors shown. -/
def submitForm (nameInput emailInput phoneInput messageInput : Option Field) :
    SubmitOutcome :=
  let r1 := validateField nameInput
  let r2 := validateField emailInput
  let r3 := validateField messageInput
  if r1.1 && r2.1 && r3.1 then
    match nameInput, emailInput, messageInput with
    | some nf, some ef, some mf =>
      let subject := encodeURIComponent "Zapytanie ze strony ITEasier".toList
      let body := buildEmailBody (trimList nf.value) (trimList ef.value)
        (phoneValueOf phoneInput) (trimList mf.value)
      .navigate ("mailto:kontakt@iteasier.pl?subject=".toList ++ subject ++
        "&body=".toList ++ body) r1.2 r2.2 r3.2
    | _, _, _ => .crash
  else
    .invalid r1.2 r2.2 r3.2

/-! ## Mobile menu (`setupMobileMenu` and friends) -/

/-- Observable state of the mobile menu: the nav panel's `is-open` class, the
toggle's `aria-expanded` and `aria-label` attributes, and `body.style.overflow`
(the scroll lock). -/
structure MenuState where
  isOpen : Bool
  ariaExpanded : String
  ariaLabel : String
  bodyOverflow : String
deriving Repr, DecidableEq

/-- Modelled from the spec: the initial DOM state at page load (the HTML file
is not part of the scripted source). The spec states the menu starts closed,
so the panel lacks `is-open` and the body scroll is unlocked. -/
def menuInitial : MenuState :=
  { isOpen := false, ariaExpanded := "false", ariaLabel := "Otwórz menu",
    bodyOverflow := "" }

/-- `openMobileMenu`. -/
def openMobileMenu (_s : MenuState) : MenuState :=
  { isOpen := true, ariaExpanded := "true", ariaLabel := "Zamknij menu",
    bodyOverflow := "hidden" }

/-- `closeMobileMenu`. -/
def closeMobileMenu (_s : MenuState) : MenuState :=
  { isOpen := false, ariaExpanded := "false", ariaLabel := "Otwórz menu",
    bodyOverflow := "" }

/-- `toggleMobileMenu`. -/
def toggleMobileMenu (s : MenuState) : MenuState :=
  if s.isOpen then closeMobileMenu s else openMobileMenu s

/-- Events wired up by `setupMobileMenu`. -/
inductive MenuEvent where
  | toggleClick
  | escapeKey
  | navLinkClick
deriving Repr, DecidableEq

/-- One step of the menu state machine, as the listeners installed by
`setupMobileMenu` handle each event. -/
def menuStep (s : MenuState) : MenuEvent → MenuState
  | .toggleClick => toggleMobileMenu s
  | .escapeKey => if s.isOpen then closeMobileMenu s else s
  | .navLinkClick => if s.isOpen then closeMobileMenu s else s

/-! ## Header scroll watcher (`updateHeader`) -/

/-- `updateHeader`: recompute the `header--scrolled` class from the current
scroll offset (the previous class state is overwritten either way). Offsets
are rationals, since `window.scrollY` can be fractional. -/
def updateHeader (scrollY : ℚ) (_scrolled : Bool) : Bool :=
  if scrollY > 50 then true else false

/-! ## Scroll-top button watcher (`updateScrollTopVisibility`) -/

/-- `updateScrollTopVisibility`: recompute the `is-visible` class from the
scroll offset and the threshold `window.innerHeight * 0.5`. -/
def updateScrollTopVisibility (scrollY innerHeight : ℚ) (_visible : Bool) : Bool :=
  let threshold := innerHeight * (1 / 2)
  if scrollY > threshold then true else false

/-! ## Scroll reveal (`setupScrollAnimations` observer callback) -/

/-- Per-element state of the reveal controller: the `is-visible` class and
whether the observer is still watching the element. -/
structure RevealState where
  revealed : Bool
  observed : Bool
deriving Repr, DecidableEq

/-- The `IntersectionObserver` callback handling one entry for the element:
if it intersects, mark it revealed and unobserve it. An entry is only
delivered while the element is observed. -/
def revealStep (s : RevealState) (isIntersecting : Bool) : RevealState :=
  if s.observed && isIntersecting then { revealed := true, observed := false }
  else s

/-- A whole sequence of intersection events for one element. -/
def revealRun (s : RevealState) (events : List Bool) : RevealState :=
  events.foldl revealStep s

/-! ## Smooth-scroll click handler (`setupSmoothScroll`) -/

/-- What an anchor-click handler run does. `fallThrough` means default
navigation is not prevented (no matching target); `thrown` models a
`TypeError` from dereferencing a missing element. -/
inductive AnchorOutcome where
  | scrollToTop
  | scrolled (position : ℚ)
  | fallThrough
  | thrown
deriving Repr, DecidableEq

/-- Elements the anchor-click handler dereferences without a null check:
the nav panel (`mainNav.classList`), and — when the menu is open — the toggle
(inside `closeMobileMenu`), and the header (`header.offsetHeight`). -/
structure AnchorEnv where
  mainNav : Option MenuState
  menuToggle : Option Unit
  header : Option (ℚ)
deriving DecidableEq

/-- The click listener installed by `setupSmoothScroll` on one anchor.
`href` is the anchor's `href` attribute; `target` is
`document.querySelector(href)` with its `offsetTop`, `none` when no element
matches. -/
def anchorClickHandler (href : List Char) (target : Option ℚ) (env : AnchorEnv) :
    AnchorOutcome :=
  if href = ['#'] then .scrollToTop
  else
    match target with
    | none => .fallThrough
    | some offsetTop =>
      match env.mainNav with
      | none => .thrown
      | some nav =>
        if nav.isOpen then
          match env.menuToggle with
          | none => .thrown
          | some _ =>
            match env.header with
            | none => .thrown
            | some headerHeight => .scrolled (offsetTop - headerHeight)
        else
          match env.header with
          | none => .thrown
          | some headerHeight => .scrolled (offsetTop - headerHeight)

/-! ## Concrete form inputs, used in instance checks -/

/-- An email input (`name="email"`, required) holding the given text. -/
def emailInput (v : String) : Field :=
  { value := v.toList, fieldName := "email", required := true,
    isInvalid := false, errorSlot := some "" }

/-- The name input of the worked example. -/
def janNameField : Field :=
  { value := "Jan Kowalski".toList, fieldName := "name", required := true,
    isInvalid := false, errorSlot := some "" }

/-- The email input of the worked example. -/
def janEmailField : Field :=
  { value := "jan@example.com".toList, fieldName := "email", required := true,
    isInvalid := false, errorSlot := some "" }

/-- The (optional, empty) phone input of the worked example. -/
def janPhoneField : Field :=
  { value := [], fieldName := "phone", required := false,
    isInvalid := false, errorSlot := some "" }

/-- The message input of the worked example. -/
def janMessageField : Field :=
  { value := "Cześć".toList, fieldName := "message", required := true,
    isInvalid := false, errorSlot := some "" }

/-- A required field left blank (whitespace only). -/
def emptyRequiredField : Field :=
  { value := [' ', ' '], fieldName := "name", required := true,
    isInvalid := false, errorSlot := some "" }

/-! ## Round-trip lemmas: `decodeURIComponent ∘ encodeURIComponent = some` -/

/-- Unicode scalar values are below `0x110000`. -/
theorem char_toNat_lt (c : Char) : c.toNat < 1114112 := by
  rcases c.valid with h | ⟨_, h2⟩
  · exact Nat.lt_trans h (by norm_num)
  · exact h2

/-- Unicode scalar values are never UTF-16 surrogates. -/
theorem char_not_surrogate (c : Char) : c.toNat < 55296 ∨ 57343 < c.toNat := by
  rcases c.valid with h | ⟨h1, _⟩
  · exact Or.inl h
  · exact Or.inr h1

/-- UTF-8 encoding produces byte values. -/
theorem utf8EncodeChar_lt (n : Nat) (hn : n < 1114112) :
    ∀ b ∈ utf8EncodeChar n, b < 256 := by
  intro b hb
  unfold utf8EncodeChar at hb
  split_ifs at hb <;> simp only [List.mem_cons, List.mem_singleton,
    List.not_mem_nil, or_false] at hb <;> omega

/-- `hexVal` inverts `hexDigitChar` on digit values. -/
theorem hexVal_hexDigitChar (x : Nat) (h : x < 16) :
    hexVal (hexDigitChar x) = some x := by
  interval_cases x <;> decide

/-- Decoding one `%XX` escape recovers the byte. -/
theorem percentToBytes_escape (b : Nat) (hb : b < 256) (rest : List Char) :
    percentToBytes (escapeByte b ++ rest) =
      (percentToBytes rest).map (fun bs => b :: bs) := by
  have h1 : b / 16 < 16 := by omega
  have h2 : b % 16 < 16 := by omega
  have h3 : 16 * (b / 16) + b % 16 = b := by omega
  simp [escapeByte, percentToBytes, hexVal_hexDigitChar _ h1,
    hexVal_hexDigitChar _ h2, h3]

/-- Decoding a run of `%XX` escapes recovers the byte list. -/
theorem percentToBytes_flatMap_escape (bytes : List Nat)
    (hb : ∀ b ∈ bytes, b < 256) (rest : List Char) :
    percentToBytes (bytes.flatMap escapeByte ++ rest) =
      (percentToBytes rest).map (fun bs => bytes ++ bs) := by
  induction bytes with
  | nil => cases h : percentToBytes rest <;> simp [h]
  | cons b bs ih =>
    simp only [List.flatMap_cons, List.append_assoc]
    rw [percentToBytes_escape b (hb b (List.mem_cons_self b bs)),
      ih (fun x hx => hb x (List.mem_cons_of_mem b hx))]
    cases percentToBytes rest <;> simp

/-- Byte recovery for the block `encodeURIComponent` emits for one character. -/
theorem percentToBytes_chunk (c : Char) (rest : List Char) :
    percentToBytes
      ((if isUnreservedURI c then [c]
        else (utf8EncodeChar c.toNat).flatMap escapeByte) ++ rest) =
      (percentToBytes rest).map (fun bs => utf8EncodeChar c.toNat ++ bs) := by
  by_cases h : isUnreservedURI c = true
  · have hne : ¬(c = '%') := by
      intro e
      rw [e] at h
      simp [isUnreservedURI] at h
    simp only [h, if_true, List.cons_append, List.nil_append]
    rw [percentToBytes.eq_def]
    simp [hne]
  · simp only [h, if_false, Bool.false_eq_true]
    exact percentToBytes_flatMap_escape _
      (utf8EncodeChar_lt _ (char_toNat_lt c)) rest

/-- UTF-8 bytes of a character list. -/
def utf8Bytes (l : List Char) : List Nat :=
  l.flatMap (fun c => utf8EncodeChar c.toNat)

/-- The first decoding phase inverts `encodeURIComponent` down to UTF-8
bytes. -/
theorem percentToBytes_encode (l : List Char) :
    percentToBytes (encodeURIComponent l) = some (utf8Bytes l) := by
  induction l with
  | nil => rfl
  | cons c cs ih =>
    simp only [encodeURIComponent, List.flatMap_cons] at ih ⊢
    rw [percentToBytes_chunk, ih]
    rfl

/-- `utf8DecodeStep` reads back exactly the scalar value `utf8EncodeChar`
wrote, leaving the tail untouched. -/
theorem utf8DecodeStep_encodeChar (c : Char) (bs : List Nat) :
    utf8DecodeStep (utf8EncodeChar c.toNat ++ bs) = some (c, bs) := by
  have hlt := char_toNat_lt c
  have hsur := char_not_surrogate c
  by_cases h1 : c.toNat < 128
  · simp [utf8EncodeChar, h1, utf8DecodeStep]
  · by_cases h2 : c.toNat < 2048
    · have e1 : ¬(192 + c.toNat / 64 < 128) := by omega
      have e2 : ¬(192 + c.toNat / 64 < 194) := by omega
      have e3 : 192 + c.toNat / 64 < 224 := by omega
      have e4 : isContByte (128 + c.toNat % 64) = true := by
        simp only [isContByte, decide_eq_true_eq]
        omega
      simp [utf8EncodeChar, h1, h2, utf8DecodeStep, e1, e2, e3, e4]
      have e5 : c.toNat / 64 * 64 + c.toNat % 64 = c.toNat := by omega
      rw [e5]
      exact Char.ofNat_toNat c
    · by_cases h3 : c.toNat < 65536
      · have e1 : ¬(224 + c.toNat / 4096 < 128) := by omega
        have e2 : ¬(224 + c.toNat / 4096 < 194) := by omega
        have e3 : ¬(224 + c.toNat / 4096 < 224) := by omega
        have e4 : 224 + c.toNat / 4096 < 240 := by omega
        have e5 : isContByte (128 + c.toNat / 64 % 64) = true := by
          simp only [isContByte, decide_eq_true_eq]
          omega
        have e6 : isContByte (128 + c.toNat % 64) = true := by
          simp only [isContByte, decide_eq_true_eq]
          omega
        simp [utf8EncodeChar, h1, h2, h3, utf8DecodeStep, e1, e2, e3, e4, e5,
          e6]
        have e7 : c.toNat / 4096 * 4096 + c.toNat / 64 % 64 * 64 +
            c.toNat % 64 = c.toNat := by omega
        rw [e7]
        exact ⟨⟨by omega, hsur⟩, Char.ofNat_toNat c⟩
      · have e1 : ¬(240 + c.toNat / 262144 < 128) := by omega
        have e2 : ¬(240 + c.toNat / 262144 < 194) := by omega
        have e3 : ¬(240 + c.toNat / 262144 < 224) := by omega
        have e4 : ¬(240 + c.toNat / 262144 < 240) := by omega
        have e5 : 240 + c.toNat / 262144 < 245 := by omega
        have e6 : isContByte (128 + c.toNat / 4096 % 64) = true := by
          simp only [isContByte, decide_eq_true_eq]
          omega
        have e7 : isContByte (128 + c.toNat / 64 % 64) = true := by
          simp only [isContByte, decide_eq_true_eq]
          omega
        have e8 : isContByte (128 + c.toNat % 64) = true := by
          simp only [isContByte, decide_eq_true_eq]
          omega
        simp [utf8EncodeChar, h1, h2, h3, utf8DecodeStep, e1, e2, e3, e4, e5,
          e6, e7, e8]
        have e9 : c.toNat / 262144 * 262144 + c.toNat / 4096 % 64 * 4096 +
            c.toNat / 64 % 64 * 64 + c.toNat % 64 = c.toNat := by omega
        rw [e9]
        exact ⟨⟨by omega, hlt⟩, Char.ofNat_toNat c⟩

/-- `utf8EncodeChar` always emits at least one byte. -/
theorem utf8EncodeChar_ne_nil (n : Nat) : utf8EncodeChar n ≠ [] := by
  unfold utf8EncodeChar
  split_ifs <;> simp

/-- Unfolding `utf8Decode` along a successful decode step. -/
theorem utf8Decode_of_step (l : List Nat) (c : Char) (r : List Nat)
    (h : utf8DecodeStep l = some (c, r)) :
    utf8Decode l = (utf8Decode r).map (fun cs => c :: cs) := by
  cases l with
  | nil => simp [utf8DecodeStep] at h
  | cons b0 rest =>
    simp only [utf8Decode]
    split
    · next c' r' heq =>
      rw [h] at heq
      cases heq
      rfl
    · next heq =>
      rw [h] at heq
      cases heq

/-- UTF-8 decoding inverts UTF-8 encoding of one scalar value, in front of any
byte tail. -/
theorem utf8Decode_encodeChar (c : Char) (bs : List Nat) :
    utf8Decode (utf8EncodeChar c.toNat ++ bs) =
      (utf8Decode bs).map (fun cs => c :: cs) := by
  exact utf8Decode_of_step _ c bs (utf8DecodeStep_encodeChar c bs)

/-- UTF-8 decoding inverts `utf8Bytes`. -/
theorem utf8Decode_utf8Bytes (l : List Char) :
    utf8Decode (utf8Bytes l) = some l := by
  induction l with
  | nil =>
    show utf8Decode [] = some []
    simp only [utf8Decode]
  | cons c cs ih =>
    simp only [utf8Bytes, List.flatMap_cons] at ih ⊢
    rw [utf8Decode_encodeChar, ih]
    rfl

/-- The decoder is a left inverse of the encoder. -/
theorem decodeURIComponent_encodeURIComponent (l : List Char) :
    decodeURIComponent (encodeURIComponent l) = some l := by
  rw [decodeURIComponent, percentToBytes_encode]
  simpa using utf8Decode_utf8Bytes l

/-! ## The regex matcher recognises exactly the spec's pattern -/

/-- The character class test, unfolded to a proposition. -/
theorem okEmailChar_iff (x : Char) :
    okEmailChar x = true ↔ (¬isJsWhitespace x ∧ x ≠ '@') := by
  simp [okEmailChar]

/-- `dotInner` finds a dot with a nonempty tail. -/
theorem dotInner_iff (l : List Char) :
    dotInner l = true ↔ ∃ b c : List Char, l = b ++ '.' :: c ∧ c ≠ [] := by
  induction l with
  | nil =>
    simp only [dotInner, Bool.false_eq_true, false_iff]
    rintro ⟨b, c, he, _⟩
    exact absurd he.symm (List.append_ne_nil_of_right_ne_nil b (by simp))
  | cons x rest ih =>
    cases rest with
    | nil =>
      simp only [dotInner, Bool.false_eq_true, false_iff]
      rintro ⟨b, c, he, hc⟩
      rcases b with _ | ⟨z, b'⟩ <;> simp_all
    | cons y rest2 =>
      simp only [dotInner, Bool.or_eq_true, beq_iff_eq, ih]
      constructor
      · rintro (hx | ⟨b, c, he, hc⟩)
        · exact ⟨[], y :: rest2, by simp [hx], by simp⟩
        · exact ⟨x :: b, c, by simp [he], hc⟩
      · rintro ⟨b, c, he, hc⟩
        rcases b with _ | ⟨z, b'⟩
        · exact Or.inl (List.head_eq_of_cons_eq he)
        · refine Or.inr ⟨b', c, ?_, hc⟩
          exact List.tail_eq_of_cons_eq he

/-- `dotSplit` finds a dot with nonempty runs on both sides. -/
theorem dotSplit_iff (l : List Char) :
    dotSplit l = true ↔
      ∃ b c : List Char, l = b ++ '.' :: c ∧ b ≠ [] ∧ c ≠ [] := by
  cases l with
  | nil =>
    simp only [dotSplit, Bool.false_eq_true, false_iff]
    rintro ⟨b, c, he, _, _⟩
    exact absurd he.symm (List.append_ne_nil_of_right_ne_nil b (by simp))
  | cons x rest =>
    simp only [dotSplit, dotInner_iff]
    constructor
    · rintro ⟨b, c, he, hc⟩
      exact ⟨x :: b, c, by simp [he], by simp, hc⟩
    · rintro ⟨b, c, he, hb, hc⟩
      rcases b with _ | ⟨z, b'⟩
      · exact absurd rfl hb
      · exact ⟨b', c, List.tail_eq_of_cons_eq he, hc⟩

/-- `emailTail` recognises `[^\s@]*@` followed by a matching domain part. -/
theorem emailTail_iff (l : List Char) :
    emailTail l = true ↔
      ∃ a r : List Char, l = a ++ '@' :: r ∧
        (∀ x ∈ a, okEmailChar x = true) ∧ emailDomainOk r = true := by
  induction l with
  | nil =>
    simp only [emailTail, Bool.false_eq_true, false_iff]
    rintro ⟨a, r, he, _, _⟩
    exact absurd he.symm (List.append_ne_nil_of_right_ne_nil a (by simp))
  | cons x rest ih =>
    by_cases hx : x = '@'
    · subst hx
      simp only [emailTail, if_pos rfl]
      constructor
      · intro h
        exact ⟨[], rest, rfl, by simp, h⟩
      · rintro ⟨a, r, he, ha, hr⟩
        rcases a with _ | ⟨z, a'⟩
        · rw [List.tail_eq_of_cons_eq he]
          exact hr
        · have hz : z = '@' := (List.head_eq_of_cons_eq he).symm
          have := ha z (List.mem_cons_self z a')
          rw [hz] at this
          simp [okEmailChar] at this
    · simp only [emailTail, if_neg hx, Bool.and_eq_true, ih]
      constructor
      · rintro ⟨hok, a, r, he, ha, hr⟩
        refine ⟨x :: a, r, by simp [he], ?_, hr⟩
        intro y hy
        rcases List.mem_cons.mp hy with hy | hy
        · rw [hy]; exact hok
        · exact ha y hy
      · rintro ⟨a, r, he, ha, hr⟩
        rcases a with _ | ⟨z, a'⟩
        · exact absurd (List.head_eq_of_cons_eq he) hx
        · have hz : x = z := List.head_eq_of_cons_eq he
          refine ⟨by rw [hz]; exact ha z (List.mem_cons_self z a'), a', r,
            List.tail_eq_of_cons_eq he, ?_, hr⟩
          intro y hy
          exact ha y (List.mem_cons_of_mem z hy)

/-- The executable matcher recognises exactly the language of
`/^[^\s@]+@[^\s@]+\.[^\s@]+$/` as the spec words it. -/
theorem emailRegexTest_iff (l : List Char) :
    emailRegexTest l = true ↔ EmailPattern l := by
  cases l with
  | nil =>
    simp only [emailRegexTest, Bool.false_eq_true, false_iff, EmailPattern]
    rintro ⟨a, b, c, he, -, -, -, -, -, -⟩
    exact absurd he.symm (List.append_ne_nil_of_right_ne_nil a (by simp))
  | cons x rest =>
    simp only [emailRegexTest, Bool.and_eq_true, emailTail_iff, EmailPattern,
      emailDomainOk, dotSplit_iff, List.all_eq_true]
    constructor
    · rintro ⟨hok, a, r, he, ha, hall, b, c, hr, hb, hc⟩
      refine ⟨x :: a, b, c, ?_, by simp, hb, hc, ?_, ?_, ?_⟩
      · rw [he, hr]; rfl
      · intro y hy
        rcases List.mem_cons.mp hy with hy | hy
        · rw [hy]; exact (okEmailChar_iff x).mp hok
        · exact (okEmailChar_iff y).mp (ha y hy)
      · intro y hy
        exact (okEmailChar_iff y).mp (hall y (by rw [hr]; simp [hy]))
      · intro y hy
        exact (okEmailChar_iff y).mp (hall y (by rw [hr]; simp [hy]))
    · rintro ⟨a, b, c, he, hane, hb, hc, ha, hbok, hcok⟩
      rcases a with _ | ⟨z, a'⟩
      · exact absurd rfl hane
      · have hz : x = z := List.head_eq_of_cons_eq he
        subst hz
        refine ⟨(okEmailChar_iff x).mpr (ha x (List.mem_cons_self x a')),
          a', b ++ '.' :: c, List.tail_eq_of_cons_eq he, ?_, ?_, b, c, rfl,
          hb, hc⟩
        · intro y hy
          exact (okEmailChar_iff y).mpr (ha y (List.mem_cons_of_mem x hy))
        · intro y hy
          rcases List.mem_append.mp hy with hy | hy
          · exact (okEmailChar_iff y).mpr (hbok y hy)
          · rcases List.mem_cons.mp hy with hy | hy
            · rw [hy]; rfl
            · exact (okEmailChar_iff y).mpr (hcok y hy)

/-! ## `validateField` helpers -/

/-- `validateField` on a present field, phrased through `fieldErrorMessage`. -/
theorem validateField_some (f : Field) :
    validateField (some f) =
      if fieldErrorMessage f ≠ "" then
        (false, some (showFieldError f (fieldErrorMessage f)))
      else (true, some (clearFieldError f)) := rfl

/-! ## Claim theorems -/

/-- **C6.** After every recomputation of the header watcher, the header
carries the `header--scrolled` state exactly when the scroll offset strictly
exceeds 50 pixels; offsets ≤ 50 always clear it, and the previous state is
irrelevant (no hysteresis). -/
theorem header_scrolled_iff_past_threshold (y : ℚ) (prev prev2 : Bool) :
    (updateHeader y prev = true ↔ 50 < y) ∧
    (updateHeader y prev = false ↔ y ≤ 50) ∧
    updateHeader y prev = updateHeader y prev2 := by
  refine ⟨?_, ?_, rfl⟩ <;>
    (unfold updateHeader
     by_cases h : (50 : ℚ) < y <;>
       simp [gt_iff_lt, h, le_of_not_lt, not_le_of_lt])

/-- **C7.** After every recomputation of the scroll-top watcher, the button is
visible exactly when the scroll offset strictly exceeds half the viewport
height; offsets at or below the half-height always hide it, and the previous
state is irrelevant. -/
theorem scroll_top_visible_iff_past_half_viewport (y h : ℚ) (prev prev2 : Bool) :
    (updateScrollTopVisibility y h prev = true ↔ h * (1 / 2) < y) ∧
    (updateScrollTopVisibility y h prev = false ↔ y ≤ h * (1 / 2)) ∧
    updateScrollTopVisibility y h prev = updateScrollTopVisibility y h prev2 := by
  refine ⟨?_, ?_, rfl⟩ <;>
    (unfold updateScrollTopVisibility
     by_cases hy : h * (1 / 2) < y <;>
       simp [gt_iff_lt, hy, le_of_not_lt, not_le_of_lt])

/-- **C8.** Once an element has been marked revealed, no later sequence of
intersection events can unmark it: a single observer step preserves the mark
and so does any whole run of events. -/
theorem reveal_state_one_way (s : RevealState) (events : List Bool)
    (h : s.revealed = true) :
    (revealRun s events).revealed = true ∧
    (∀ t : RevealState, ∀ b : Bool, t.revealed = true →
      (revealStep t b).revealed = true) := by
  have hstep : ∀ t : RevealState, ∀ b : Bool, t.revealed = true →
      (revealStep t b).revealed = true := by
    intro t b ht
    unfold revealStep
    split_ifs <;> simp [ht]
  refine ⟨?_, hstep⟩
  induction events generalizing s with
  | nil => exact h
  | cons b bs ih => exact ih (revealStep s b) (hstep s b h)

/-- Witness for C8 at a concrete revealed state and event sequence. -/
theorem reveal_state_one_way_witness :
    (⟨true, false⟩ : RevealState).revealed = true ∧
    (revealRun ⟨true, false⟩ [true, false, true]).revealed = true :=
  ⟨rfl, (reveal_state_one_way ⟨true, false⟩ [true, false, true] rfl).1⟩

/-- **C5.** The mobile menu is a two-state machine starting closed: a toggle
click flips the open state, Escape closes it only when open, a nav-link click
closes it only when open, and after any transition the body scroll lock
(`overflow: hidden`) holds exactly when the menu is open. -/
theorem mobile_menu_two_state_machine (s : MenuState) (e : MenuEvent)
    (hs : s.bodyOverflow = "hidden" ↔ s.isOpen = true) :
    menuInitial.isOpen = false ∧
    (menuInitial.bodyOverflow = "hidden" ↔ menuInitial.isOpen = true) ∧
    (menuStep s .toggleClick).isOpen = !s.isOpen ∧
    (s.isOpen = true → menuStep s .escapeKey = closeMobileMenu s) ∧
    (s.isOpen = false → menuStep s .escapeKey = s) ∧
    (s.isOpen = true → menuStep s .navLinkClick = closeMobileMenu s) ∧
    (s.isOpen = false → menuStep s .navLinkClick = s) ∧
    ((menuStep s e).bodyOverflow = "hidden" ↔ (menuStep s e).isOpen = true) := by
  refine ⟨rfl, by simp [menuInitial], ?_, ?_, ?_, ?_, ?_, ?_⟩
  · cases hb : s.isOpen <;>
      simp [menuStep, toggleMobileMenu, hb, openMobileMenu, closeMobileMenu]
  · intro h
    simp [menuStep, h]
  · intro h
    simp [menuStep, h]
  · intro h
    simp [menuStep, h]
  · intro h
    simp [menuStep, h]
  · cases e <;> cases hb : s.isOpen <;>
      simp [menuStep, toggleMobileMenu, openMobileMenu, closeMobileMenu, hb, hs]

/-- Witness for C5 at the initial state and a toggle click. -/
theorem mobile_menu_two_state_machine_witness :
    (menuInitial.bodyOverflow = "hidden" ↔ menuInitial.isOpen = true) ∧
    (menuStep menuInitial .toggleClick).isOpen = !menuInitial.isOpen := by
  have hs : menuInitial.bodyOverflow = "hidden" ↔ menuInitial.isOpen = true := by
    simp [menuInitial]
  exact ⟨hs, (mobile_menu_two_state_machine menuInitial .toggleClick hs).2.2.1⟩

/-- **C4, counterexample.** Activating an in-page anchor link whose target
exists throws (models a `TypeError`) when the navigation panel element is
absent, because the handler dereferences `mainNav.classList` without a null
check — so the "never raises an error" claim fails. -/
theorem anchor_click_throws_without_nav :
    anchorClickHandler "#kontakt".toList (some 600)
      { mainNav := none, menuToggle := some (), header := some 80 } =
      .thrown := by
  rfl

/-- **C4, amended.** With the navigation panel, menu toggle and header
elements all present the anchor-click handler never throws, and a click whose
target element is missing never throws in any environment (it falls through
to native navigation); only the combination "target exists, dereferenced
element absent" raises. -/
theorem anchor_click_safe_with_required_elements (href : List Char)
    (target : Option ℚ) (env : AnchorEnv)
    (hnav : env.mainNav.isSome = true) (htog : env.menuToggle.isSome = true)
    (hhdr : env.header.isSome = true) :
    anchorClickHandler href target env ≠ .thrown ∧
    (∀ env2 : AnchorEnv, ∀ href2 : List Char,
      anchorClickHandler href2 none env2 ≠ .thrown) := by
  constructor
  · obtain ⟨nav, hn⟩ := Option.isSome_iff_exists.mp hnav
    obtain ⟨tog, ht⟩ := Option.isSome_iff_exists.mp htog
    obtain ⟨hd, hh⟩ := Option.isSome_iff_exists.mp hhdr
    unfold anchorClickHandler
    rw [hn, ht, hh]
    split_ifs
    · simp
    · cases target with
      | none => simp
      | some t => cases hno : nav.isOpen <;> simp [hno]
  · intro env2 href2
    unfold anchorClickHandler
    split_ifs <;> simp

/-- Witness for the amended C4 with all three elements present. -/
theorem anchor_click_safe_with_required_elements_witness :
    (({ mainNav := some menuInitial, menuToggle := some (),
        header := some 80 } : AnchorEnv).mainNav.isSome = true) ∧
    (({ mainNav := some menuInitial, menuToggle := some (),
        header := some 80 } : AnchorEnv).menuToggle.isSome = true) ∧
    (({ mainNav := some menuInitial, menuToggle := some (),
        header := some 80 } : AnchorEnv).header.isSome = true) ∧
    anchorClickHandler "#uslugi".toList (some 100)
      { mainNav := some menuInitial, menuToggle := some (),
        header := some 80 } ≠ .thrown :=
  ⟨rfl, rfl, rfl,
    (anchor_click_safe_with_required_elements "#uslugi".toList (some 100)
      { mainNav := some menuInitial, menuToggle := some (), header := some 80 }
      rfl rfl rfl).1⟩

/-- **C10.** `validateField` treats an absent (`null`) input as valid, so a
submit with the name input missing but the other fields valid passes
validation and proceeds into the body-building step, where dereferencing the
missing input crashes (the modelled `TypeError`). -/
theorem validate_missing_input_true_and_submit_crashes
    (ef mf : Field) (pf : Option Field)
    (h2 : (validateField (some ef)).1 = true)
    (h3 : (validateField (some mf)).1 = true) :
    validateField none = (true, none) ∧
    submitForm none (some ef) pf (some mf) = .crash := by
  refine ⟨rfl, ?_⟩
  have h1 : (validateField (none : Option Field)).1 = true := rfl
  simp [submitForm, h1, h2, h3]

/-- Witness for C10 with concrete valid email and message inputs. -/
theorem validate_missing_input_true_and_submit_crashes_witness :
    (validateField (some janEmailField)).1 = true ∧
    (validateField (some janMessageField)).1 = true ∧
    submitForm none (some janEmailField) (some janPhoneField)
      (some janMessageField) = .crash := by
  have h2 : (validateField (some janEmailField)).1 = true := by decide
  have h3 : (validateField (some janMessageField)).1 = true := by decide
  exact ⟨h2, h3,
    (validate_missing_input_true_and_submit_crashes janEmailField
      janMessageField (some janPhoneField) h2 h3).2⟩

/-- **C2.** If any of the three required fields is invalid at submit time, the
submit aborts: the outcome is the error state (no mailto link is built, no
navigation, no success notice), and revalidation leaves exactly the invalid
fields marked `is-invalid` with a nonempty message while each valid field is
cleared. -/
theorem submit_invalid_aborts_with_field_errors
    (nameF emailF phoneF messageF : Option Field)
    (h : (validateField nameF).1 = false ∨ (validateField emailF).1 = false ∨
      (validateField messageF).1 = false) :
    submitForm nameF emailF phoneF messageF =
      .invalid (validateField nameF).2 (validateField emailF).2
        (validateField messageF).2 ∧
    successNoticeInserted (submitForm nameF emailF phoneF messageF) = false ∧
    (∀ f : Field,
      ((validateField (some f)).1 = true →
        (validateField (some f)).2 = some (clearFieldError f) ∧
        (clearFieldError f).isInvalid = false ∧
        (clearFieldError f).errorSlot = f.errorSlot.map (fun _ => "")) ∧
      ((validateField (some f)).1 = false →
        (validateField (some f)).2 =
          some (showFieldError f (fieldErrorMessage f)) ∧
        fieldErrorMessage f ≠ "" ∧
        (showFieldError f (fieldErrorMessage f)).isInvalid = true ∧
        (showFieldError f (fieldErrorMessage f)).errorSlot =
          f.errorSlot.map (fun _ => fieldErrorMessage f))) := by
  have habort : submitForm nameF emailF phoneF messageF =
      .invalid (validateField nameF).2 (validateField emailF).2
        (validateField messageF).2 := by
    rcases h with h | h | h <;> simp [submitForm, h]
  refine ⟨habort, by rw [habort]; rfl, ?_⟩
  intro f
  constructor
  · intro hv
    rw [validateField_some] at hv ⊢
    by_cases hm : fieldErrorMessage f = ""
    · simp [hm, clearFieldError]
    · simp [hm] at hv
  · intro hv
    rw [validateField_some] at hv ⊢
    by_cases hm : fieldErrorMessage f = ""
    · simp [hm] at hv
    · simp [hm, showFieldError]

/-- Witness for C2 at a concrete submit with an invalid email field. -/
theorem submit_invalid_aborts_with_field_errors_witness :
    ((validateField (some janNameField)).1 = false ∨
     (validateField (some (emailInput "not-an-email"))).1 = false ∨
     (validateField (some janMessageField)).1 = false) ∧
    successNoticeInserted (submitForm (some janNameField)
      (some (emailInput "not-an-email")) (some janPhoneField)
      (some janMessageField)) = false := by
  have h : (validateField (some janNameField)).1 = false ∨
      (validateField (some (emailInput "not-an-email"))).1 = false ∨
      (validateField (some janMessageField)).1 = false :=
    Or.inr (Or.inl (by decide))
  exact ⟨h, (submit_invalid_aborts_with_field_errors (some janNameField)
    (some (emailInput "not-an-email")) (some janPhoneField)
    (some janMessageField) h).2.1⟩

/-- **C9.** A required field whose trimmed value is empty is marked invalid on
blur with the localized "required" message; and an input event always runs
`clearFieldError`, which unconditionally removes the marker and empties the
message without re-validating (it never reads the value). -/
theorem blur_marks_required_empty_and_input_clears (f : Field)
    (hreq : f.required = true) (hempty : trimList f.value = []) :
    validateField (some f) =
      (false, some (showFieldError f "To pole jest wymagane")) ∧
    (showFieldError f "To pole jest wymagane").isInvalid = true ∧
    (showFieldError f "To pole jest wymagane").errorSlot =
      f.errorSlot.map (fun _ => "To pole jest wymagane") ∧
    (∀ g : Field,
      (clearFieldError g).isInvalid = false ∧
      (clearFieldError g).errorSlot = g.errorSlot.map (fun _ => "") ∧
      (clearFieldError g).value = g.value ∧
      (clearFieldError g).fieldName = g.fieldName ∧
      (clearFieldError g).required = g.required) := by
  have hmsg : fieldErrorMessage f = "To pole jest wymagane" := by
    simp only [fieldErrorMessage]
    rw [if_pos ⟨hreq, hempty⟩]
  refine ⟨?_, rfl, rfl, fun g => ⟨rfl, rfl, rfl, rfl, rfl⟩⟩
  rw [validateField_some, hmsg]
  simp

/-- Witness for C9 at a concrete blank required field. -/
theorem blur_marks_required_empty_and_input_clears_witness :
    emptyRequiredField.required = true ∧
    trimList emptyRequiredField.value = [] ∧
    validateField (some emptyRequiredField) =
      (false, some (showFieldError emptyRequiredField
        "To pole jest wymagane")) := by
  have h1 : emptyRequiredField.required = true := rfl
  have h2 : trimList emptyRequiredField.value = [] := by decide
  exact ⟨h1, h2,
    (blur_marks_required_empty_and_input_clears emptyRequiredField h1 h2).1⟩

/-- **C3.** A non-whitespace email value validates exactly when it matches the
pattern "one or more characters neither whitespace nor `@`, then `@`, then one
or more such characters, then `.`, then one or more such characters"; a
failing value produces the localized format error; `"not-an-email"` is
invalid and `"user@example.com"` is valid. -/
theorem email_validation_iff_pattern (f : Field)
    (hname : f.fieldName = "email") (hval : trimList f.value ≠ []) :
    ((validateField (some f)).1 = true ↔ EmailPattern (trimList f.value)) ∧
    ((validateField (some f)).1 = false →
      validateField (some f) =
        (false, some (showFieldError f "Podaj prawidłowy adres e-mail"))) ∧
    (validateField (some (emailInput "not-an-email"))).1 = false ∧
    (validateField (some (emailInput "user@example.com"))).1 = true := by
  have hmsg : fieldErrorMessage f =
      if !emailRegexTest (trimList f.value) then
        "Podaj prawidłowy adres e-mail"
      else "" := by
    simp only [fieldErrorMessage]
    rw [if_neg (fun hcon => hval hcon.2), if_pos ⟨hname, hval⟩]
  refine ⟨?_, ?_, by decide, by decide⟩
  · rw [validateField_some, hmsg, ← emailRegexTest_iff]
    cases hb : emailRegexTest (trimList f.value) <;> simp [hb]
  · intro hv
    rw [validateField_some, hmsg] at hv ⊢
    cases hb : emailRegexTest (trimList f.value)
    · simp [hb]
    · rw [hb] at hv
      simp at hv

/-- Witness for C3 at the concrete valid address. -/
theorem email_validation_iff_pattern_witness :
    (emailInput "user@example.com").fieldName = "email" ∧
    trimList (emailInput "user@example.com").value ≠ [] ∧
    ((validateField (some (emailInput "user@example.com"))).1 = true ↔
      EmailPattern (trimList (emailInput "user@example.com").value)) := by
  have h1 : (emailInput "user@example.com").fieldName = "email" := rfl
  have h2 : trimList (emailInput "user@example.com").value ≠ [] := by decide
  exact ⟨h1, h2, (email_validation_iff_pattern (emailInput "user@example.com")
    h1 h2).1⟩

set_option maxRecDepth 100000 in
/-- **C1.** When the three required fields validate, the submit handler
navigates to a mailto link whose body is `buildEmailBody` of the trimmed
inputs; for all inputs the percent-decoded body is exactly the labeled name
line, labeled email line, a labeled phone line only when the trimmed phone is
nonempty, and the labeled message; and for the worked example the decoded
body contains the name and email lines and the message, and no
"Telefon:"-labeled line. -/
theorem submit_valid_navigates_mailto_with_labeled_body
    (nf ef mf : Field) (pf : Option Field)
    (h1 : (validateField (some nf)).1 = true)
    (h2 : (validateField (some ef)).1 = true)
    (h3 : (validateField (some mf)).1 = true) :
    submitForm (some nf) (some ef) pf (some mf) =
      .navigate
        ("mailto:kontakt@iteasier.pl?subject=".toList ++
          encodeURIComponent "Zapytanie ze strony ITEasier".toList ++
          "&body=".toList ++
          buildEmailBody (trimList nf.value) (trimList ef.value)
            (phoneValueOf pf) (trimList mf.value))
        (validateField (some nf)).2 (validateField (some ef)).2
        (validateField (some mf)).2 ∧
    (∀ name email phone message : List Char,
      decodeURIComponent (buildEmailBody name email phone message) =
        some ("Imię i nazwisko: ".toList ++ name ++ ['\n'] ++
          ("E-mail: ".toList ++ email ++ ['\n']) ++
          (if phone ≠ [] then "Telefon: ".toList ++ phone ++ ['\n'] else []) ++
          (['\n'] ++ "Wiadomość:\n".toList ++ message))) ∧
    (∃ d : List Char,
      decodeURIComponent (buildEmailBody "Jan Kowalski".toList
        "jan@example.com".toList [] "Cześć".toList) = some d ∧
      "Imię i nazwisko: Jan Kowalski\n".toList <:+: d ∧
      "E-mail: jan@example.com\n".toList <:+: d ∧
      "Wiadomość:\nCześć".toList <:+: d ∧
      ¬("Telefon:".toList <:+: d)) := by
  have hgen : ∀ name email phone message : List Char,
      decodeURIComponent (buildEmailBody name email phone message) =
        some ("Imię i nazwisko: ".toList ++ name ++ ['\n'] ++
          ("E-mail: ".toList ++ email ++ ['\n']) ++
          (if phone ≠ [] then "Telefon: ".toList ++ phone ++ ['\n'] else []) ++
          (['\n'] ++ "Wiadomość:\n".toList ++ message)) := by
    intro n e p m
    simp only [buildEmailBody]
    rw [decodeURIComponent_encodeURIComponent]
    simp [List.append_assoc]
  refine ⟨?_, hgen, ⟨_, hgen _ _ _ _, by decide, by decide, by decide,
    by decide⟩⟩
  simp [submitForm, h1, h2, h3]

/-- Witness for C1 at the worked example's inputs. -/
theorem submit_valid_navigates_mailto_witness :
    (validateField (some janNameField)).1 = true ∧
    (validateField (some janEmailField)).1 = true ∧
    (validateField (some janMessageField)).1 = true ∧
    successNoticeInserted (submitForm (some janNameField)
      (some janEmailField) (some janPhoneField)
      (some janMessageField)) = true := by
  have h1 : (validateField (some janNameField)).1 = true := by decide
  have h2 : (validateField (some janEmailField)).1 = true := by decide
  have h3 : (validateField (some janMessageField)).1 = true := by decide
  have hmain := submit_valid_navigates_mailto_with_labeled_body janNameField
    janEmailField janMessageField (some janPhoneField) h1 h2 h3
  refine ⟨h1, h2, h3, ?_⟩
  rw [hmain.1]
  rfl

end ITEasier
